import Mathlib

/-!
Verification development for the SQL parsing & lineage engine of this
repository.  The Lean definitions below are shallow embeddings of:

* `src/metadata-ingestion/src/datahub/utilities/sqlglot_lineage.py`
  (data model, `FrozenModel.__lt__`, `_table_level_lineage`,
  `SchemaResolver`, `_column_level_lineage`, `sqlglot_tester`);
* `src/metadata-ingestion/src/datahub/ingestion/source/bigquery_v2/queries_extractor.py`
  (`BigQueryQueriesExtractor.deduplicate_queries`);
* `src/metadata-ingestion/src/datahub/sql_parsing/_sqlglot_patch.py`
  (the patched `Scope.traverse` cycle guard and the patched
  `sqlglot.lineage` node with its `subfield` attribute).

Python `set`s are modelled as duplicate-free lists (`List.dedup`), Python
dicts as association lists, and a Python call that can raise is modelled
with `Option`/`Except` (a `none`/`.error` marks the raised exception).
-/

namespace DatahubLineage

/-- The `TableName` from sqlglot_lineage.py (pydantic model with fields
`database`, `db_schema`, `table`; the first two are optional). -/
structure TableName where
  database : Option String
  db_schema : Option String
  table : String
deriving DecidableEq, Repr

/-- The `ColumnRef` from sqlglot_lineage.py. -/
structure ColumnRef where
  table : TableName
  column : String
deriving DecidableEq, Repr

/-- The `DownstreamColumnRef` from sqlglot_lineage.py: the table may be
unresolved. -/
structure DownstreamColumnRef where
  table : Option TableName
  column : String
deriving DecidableEq, Repr

/-- The `ColumnLineageInfo` from sqlglot_lineage.py.  The `logic` field is
declared with `exclude=True` and never set in the code under review, so it
is omitted here. -/
structure ColumnLineageInfo where
  downstream : DownstreamColumnRef
  upstreams : List ColumnRef
deriving DecidableEq, Repr

/-- The `SqlParsingResult` from sqlglot_lineage.py. -/
structure SqlParsingResult where
  in_tables : List TableName
  out_tables : List TableName
  column_lineage : Option (List ColumnLineageInfo)
deriving DecidableEq, Repr

/-! ### `FrozenModel.__lt__`

`FrozenModel.__lt__` walks the pydantic fields in declaration order; at the
first field where the two values differ it returns `self_v < other_v`.
When that field is an `Optional[str]` and exactly one side is `None`,
Python's `None < str` comparison raises `TypeError`.  We model the
comparison as an `Option Bool`, with `none` standing for the raised
`TypeError`. -/

/-- Python `str.__lt__` on code-point sequences: compare heads by code
point, recurse on equal heads, a strict prefix is smaller. -/
def strLtAux : List Char → List Char → Bool
  | [], [] => false
  | [], _ :: _ => true
  | _ :: _, [] => false
  | a :: as, b :: bs =>
    if a.toNat < b.toNat then true
    else if b.toNat < a.toNat then false
    else strLtAux as bs

/-- Python `x < y` on strings. -/
def strLt (x y : String) : Bool := strLtAux x.data y.data

/-- Python `str.lower` (identifiers here are ASCII). -/
def strToLower (s : String) : String := String.mk (s.data.map Char.toLower)

/-- Python `str.upper` (identifiers here are ASCII). -/
def strToUpper (s : String) : String := String.mk (s.data.map Char.toUpper)

/-- Python `str.startswith`. -/
def strStartsWith (s p : String) : Bool := p.data.isPrefixOf s.data

/-- One field step of `FrozenModel.__lt__` on an `Optional[str]` field,
invoked only when the two values differ.  `none` models the Python
`TypeError` from comparing `None` against a string. -/
def optFieldLt : Option String → Option String → Option Bool
  | some x, some y => some (strLt x y)
  | _, _ => none

/-- The `FrozenModel.__lt__` specialised to `TableName`: fields are compared in
declaration order (`database`, `db_schema`, `table`); the first differing
field decides.  Equal models give `False`. -/
def tableNameLt (a b : TableName) : Option Bool :=
  if a.database ≠ b.database then optFieldLt a.database b.database
  else if a.db_schema ≠ b.db_schema then optFieldLt a.db_schema b.db_schema
  else if a.table ≠ b.table then some (strLt a.table b.table)
  else some false

/-- The `FrozenModel.__lt__` specialised to `ColumnRef`: the `table` field is
itself compared with `TableName.__lt__` (which may raise), then `column`. -/
def columnRefLt (a b : ColumnRef) : Option Bool :=
  if a.table ≠ b.table then tableNameLt a.table b.table
  else if a.column ≠ b.column then some (strLt a.column b.column)
  else some false

/-! ### Python `sorted` with a fallible comparison

`sqlglot_tester` ends with `sorted(tables)` / `sorted(modified)` and the
column walk uses `sorted(direct_col_upstreams)`; `sorted` raises whenever
it compares an incomparable pair.  We model it as a stable insertion sort
returning `none` when a performed comparison raises. -/

/-- Insert `x` into an already sorted list, failing if a comparison
raises.  `x` is placed before the first strictly greater element, after
elements it does not compare less than (stable). -/
def insertFallible (lt : α → α → Option Bool) (x : α) : List α → Option (List α)
  | [] => some [x]
  | y :: ys =>
    match lt x y with
    | none => none
    | some true => some (x :: y :: ys)
    | some false => (insertFallible lt x ys).map (y :: ·)

/-- Model of Python `sorted` under a fallible comparison. -/
def sortFallible (lt : α → α → Option Bool) (l : List α) : Option (List α) :=
  l.foldlM (fun acc x => insertFallible lt x acc) []

/-! ### Association lists

Python `dict`s are modelled as association lists in insertion order:
`assocSet` replaces an existing binding in place or appends a new one at
the end, exactly like `d[k] = v`. -/

/-- Look up a key in an association list (first binding wins). -/
def assocFind [DecidableEq α] (k : α) : List (α × β) → Option β
  | [] => none
  | (k', v) :: rest => if k' = k then some v else assocFind k rest

/-- Set a key in an association list: replace the existing binding in
place, else append at the end (Python `d[k] = v`). -/
def assocSet [DecidableEq α] (k : α) (v : β) : List (α × β) → List (α × β)
  | [] => [(k, v)]
  | (k', v') :: rest =>
    if k' = k then (k', v) :: rest else (k', v') :: assocSet k v rest

/-! ### Query deduplication (`BigQueryQueriesExtractor.deduplicate_queries`)

From queries_extractor.py.  The extractor keys a two-level dict
`query_fingerprint -> time_bucket -> ObservedQuery`; on a repeated key it
mutates the stored representative in place: `usage_multiplier += 1` and
`timestamp = query.timestamp`. -/

/-- Modelled from the spec: `ObservedQuery` is defined in
`datahub/sql_parsing/sql_parsing_aggregator.py`, which is not among the
source files under review; §3 of the spec gives its shape
`{query_text, timestamp, session_id?, user?, default_db?, default_schema?,
query_hash?, usage_multiplier=1}`.  Timestamps are in epoch units as
integers. -/
structure ObservedQuery where
  query : String
  timestamp : Option Int
  session_id : Option String := none
  user : Option String := none
  default_db : Option String := none
  default_schema : Option String := none
  query_hash : Option String := none
  usage_multiplier : Nat := 1
deriving DecidableEq, Repr

/-- The two-level dedup map `fingerprint -> time_bucket -> ObservedQuery`
(`FileBackedDict[Dict[int, ObservedQuery]]` in the source). -/
abbrev DedupState : Type := List (String × List (Int × ObservedQuery))

/-- Look up the representative for a `(fingerprint, time_bucket)` key. -/
def dedupFind (st : DedupState) (fp : String) (tb : Int) : Option ObservedQuery :=
  (assocFind fp st).bind (assocFind tb)

/-- Store the representative for a `(fingerprint, time_bucket)` key
(`setdefault` on the outer dict, then assignment on the inner one). -/
def dedupSet (st : DedupState) (fp : String) (tb : Int) (v : ObservedQuery) :
    DedupState :=
  match assocFind fp st with
  | none => st ++ [(fp, [(tb, v)])]
  | some inner => assocSet fp (assocSet tb v inner) st

/-- One iteration of the loop body of `deduplicate_queries`:
compute the time bucket (0 when the timestamp is absent) and the
fingerprint, store the fingerprint on the query, and either insert the
query as the representative or merge into the existing representative
(`usage_multiplier += 1`, `timestamp = query.timestamp`). -/
def dedupBucket (bucketOf : Int → Int) (q : ObservedQuery) : Int :=
  match q.timestamp with | none => 0 | some ts => bucketOf ts

/-- See the comment above: the loop body of `deduplicate_queries`. -/
def dedupStep (bucketOf : Int → Int) (fingerprintOf : String → String)
    (st : DedupState) (q : ObservedQuery) : DedupState :=
  let tb : Int := dedupBucket bucketOf q
  let fp := fingerprintOf q.query
  let q' := { q with query_hash := some fp }
  match dedupFind st fp tb with
  | none => dedupSet st fp tb q'
  | some rep =>
    dedupSet st fp tb
      { rep with
        usage_multiplier := rep.usage_multiplier + 1
        timestamp := q.timestamp }

/-- The `BigQueryQueriesExtractor.deduplicate_queries`: fold the loop body over
the observed-query log. -/
def deduplicateQueries (bucketOf : Int → Int) (fingerprintOf : String → String)
    (queries : List ObservedQuery) : DedupState :=
  queries.foldl (dedupStep bucketOf fingerprintOf) []

/-- Well-keyedness of the dedup map: outer keys are duplicate-free and each
inner bucket map has duplicate-free keys — i.e. at most one representative
per `(time bucket, fingerprint)` key. -/
def DedupWellKeyed (st : DedupState) : Prop :=
  (st.map Prod.fst).Nodup ∧ ∀ p ∈ st, ((p.2.map Prod.fst).Nodup)

/-! ### `SchemaResolver`

From sqlglot_lineage.py.  `SchemaInfo` is `Dict[str, str]` (column path to
type tag); the schema cache maps urns to `Optional[SchemaInfo]`, with
`None` as a negative-cache entry.  Python truthiness of an
`Optional[SchemaInfo]` (`if schema_info:`) is false both for `None` and
for an empty dict. -/

/-- The `SchemaInfo = Dict[str, str]` from sqlglot_lineage.py. -/
abbrev SchemaInfo : Type := List (String × String)

/-- Python truthiness of an `Optional[SchemaInfo]` value. -/
def truthySchema : Option SchemaInfo → Bool
  | some (_ :: _) => true
  | _ => false

/-- Modelled from the spec: `make_dataset_urn_with_platform_instance`
(`datahub/emitter/mce_builder.py`, not among the source files under
review).  Per §6 and the glossary, a urn is a canonical string identity
derived from platform, instance, environment, and qualified name; the
instance, when present, prefixes the name. -/
def makeDatasetUrn (platform : String) (inst : Option String)
    (env : String) (name : String) : String :=
  "urn:li:dataset:(urn:li:dataPlatform:" ++ platform ++ ","
    ++ (match inst with | some i => i ++ "." | none => "") ++ name
    ++ "," ++ env ++ ")"

/-- The state of a `SchemaResolver`: configuration, the optional external
catalog (`DataHubGraph.get_aspect`, modelled as a urn-to-schema table), and
the schema cache.  `bigqueryNormalize` — modelled from the spec: the
BigQuery shard normalization (`BigqueryTableIdentifier.from_string_name(...)
.get_table_name()`) lives outside the reviewed sources and is kept as an
uninterpreted rewrite of the joined table name, applied only when the
platform is `bigquery`. -/
structure SchemaResolverState where
  platform : String
  platform_instance : Option String := none
  env : String := "PROD"
  graph : Option (List (String × SchemaInfo)) := none
  cache : List (String × Option SchemaInfo) := []
  bigqueryNormalize : String → String := id

/-- The `SchemaResolver.get_urn_for_table`: join the non-empty name parts with
dots, optionally lowercase, apply the BigQuery normalization when the
platform is `bigquery`, and build the dataset urn. -/
def getUrnForTable (st : SchemaResolverState) (t : TableName) (lower : Bool) :
    String :=
  let table_name := String.intercalate "."
    (([t.database, t.db_schema, some t.table].filterMap id).filter
      (fun s => !(s = "")))
  let table_name := if lower then strToLower table_name else table_name
  let table_name :=
    if st.platform = "bigquery" then st.bigqueryNormalize table_name
    else table_name
  makeDatasetUrn st.platform st.platform_instance st.env table_name

/-- The `SchemaResolver._resolve_schema_info`: consult the cache first (a
stored `None` is a valid negative entry), then the external catalog,
populating the cache either positively (truthy fetch) or negatively. -/
def resolveSchemaInfo (st : SchemaResolverState) (urn : String) :
    Option SchemaInfo × SchemaResolverState :=
  match assocFind urn st.cache with
  | some v => (v, st)
  | none =>
    match (st.graph.bind (assocFind urn)) with
    | some si =>
      if si ≠ [] then
        (some si, { st with cache := assocSet urn (some si) st.cache })
      else
        (none, { st with cache := assocSet urn none st.cache })
    | none => (none, { st with cache := assocSet urn none st.cache })

/-- The `SchemaResolver.resolve_table`: look up the urn built from the table as
given; when that yields no (truthy) schema and the all-lowercase urn
differs, retry once with it; give up by returning the lowercase urn paired
with `None`. -/
def resolveTable (st : SchemaResolverState) (t : TableName) :
    (String × Option SchemaInfo) × SchemaResolverState :=
  let urn := getUrnForTable st t false
  let r1 := resolveSchemaInfo st urn
  if truthySchema r1.1 then ((urn, r1.1), r1.2)
  else
    let urnLower := getUrnForTable st t true
    if urnLower ≠ urn then
      let r2 := resolveSchemaInfo r1.2 urnLower
      if truthySchema r2.1 then ((urnLower, r2.1), r2.2)
      else ((urnLower, none), r2.2)
    else ((urnLower, none), r1.2)

/-! ### SQL AST

Modelled from the spec: §4.1 treats SQL parsing as an external capability
exposing a typed AST (sqlglot); the types below are the fragment of that
AST which the reviewed code walks.  A `TableExpr` is `sqlglot.exp.Table`
(`catalog`/`db`/`this`); an absent part (`""` in sqlglot) is `none`. -/

structure TableExpr where
  catalog : Option String
  db : Option String
  name : String
deriving DecidableEq, Repr

/-- Scalar expressions appearing in SELECT items. -/
inductive SqlExpr where
  | col (tbl : Option String) (name : String)
  | star
  | sumAgg (arg : SqlExpr)
  | countStar
deriving DecidableEq, Repr

/-- One projection of a SELECT, with its optional alias. -/
structure SelectItem where
  expr : SqlExpr
  aliasName : Option String
deriving DecidableEq, Repr

/-- A CTE body or subquery-free SELECT: projections, FROM/JOIN sources
(with optional aliases), GROUP BY. -/
structure FlatSelect where
  items : List SelectItem
  sources : List (TableExpr × Option String)
  groupBy : List SqlExpr := []
deriving DecidableEq, Repr

/-- A SELECT statement: leading CTEs (name and body) plus the main
select.  A source whose name matches a CTE name is a CTE reference. -/
structure SelectQ where
  ctes : List (String × FlatSelect) := []
  items : List SelectItem
  sources : List (TableExpr × Option String)
  groupBy : List SqlExpr := []
deriving DecidableEq, Repr

/-- The `this` argument of a write construct.  sqlglot_lineage.py guards
`isinstance(expr.this, sqlglot.exp.Table)`: e.g. the INSERT clause inside a
MERGE has a non-table `this` (a positional column list). -/
inductive TargetExpr where
  | table (t : TableExpr)
  | nonTable
deriving DecidableEq, Repr

/-- Statements covered by the reviewed code paths: SELECT, INSERT ...
SELECT, CREATE [AS SELECT], UPDATE, DELETE, and MERGE (whose USING source
is a table and which may contain an inner INSERT node in a WHEN clause). -/
inductive Stmt where
  | select (q : SelectQ)
  | insert (target : TargetExpr) (source : SelectQ)
  | create (target : TargetExpr) (source : Option SelectQ)
  | update (target : TargetExpr)
  | delete (target : TargetExpr)
  | merge (target : TargetExpr) (usingTable : TableExpr)
      (whenInsert : Option TargetExpr)
deriving DecidableEq, Repr

/-- The `TableName.from_sqlglot_table`: take the table parts, falling back to
the default db / schema (Python `x or default`). -/
def fromSqlglotTable (t : TableExpr) (default_db default_schema : Option String) :
    TableName :=
  { database := match t.catalog with | some c => some c | none => default_db
    db_schema := match t.db with | some d => some d | none => default_schema
    table := t.name }

/-- The `_raw_table_name` inside `_table_level_lineage`: no defaults (the
statement was already qualified). -/
def rawTableName (t : TableExpr) : TableName := fromSqlglotTable t none none

/-- The tables of a `TargetExpr` (`[]` when `this` is not a table). -/
def targetTables : TargetExpr → List TableExpr
  | .table t => [t]
  | .nonTable => []

/-- All `exp.Table` nodes of a CTE body. -/
def flatSelectTables (f : FlatSelect) : List TableExpr := f.sources.map Prod.fst

/-- All `exp.Table` nodes of a SELECT (CTE bodies, then FROM sources). -/
def selectQTables (q : SelectQ) : List TableExpr :=
  (q.ctes.map (fun c => flatSelectTables c.2)).flatten ++ q.sources.map Prod.fst

/-- The `statement.find_all(sqlglot.exp.Table)`: every table reference in the
statement, including write targets that are tables. -/
def stmtTables : Stmt → List TableExpr
  | .select q => selectQTables q
  | .insert tgt src => targetTables tgt ++ selectQTables src
  | .create tgt src =>
    targetTables tgt ++ (match src with | some q => selectQTables q | none => [])
  | .update tgt => targetTables tgt
  | .delete tgt => targetTables tgt
  | .merge tgt u wi =>
    targetTables tgt ++ [u] ++ (match wi with | some t => targetTables t | none => [])

/-- The `this` of every Create/Insert/Update/Delete/Merge node in the
tree (a MERGE may contain an inner INSERT node). -/
def stmtWriteTargets : Stmt → List TargetExpr
  | .select _ => []
  | .insert tgt _ => [tgt]
  | .create tgt _ => [tgt]
  | .update tgt => [tgt]
  | .delete tgt => [tgt]
  | .merge tgt _ wi => [tgt] ++ (match wi with | some t => [t] | none => [])

/-- The `statement.find_all(sqlglot.exp.CTE)`: the alias of every CTE defined
in the statement. -/
def stmtCteNames : Stmt → List String
  | .select q => q.ctes.map Prod.fst
  | .insert _ src => src.ctes.map Prod.fst
  | .create _ (some q) => q.ctes.map Prod.fst
  | .create _ none => []
  | .update _ => []
  | .delete _ => []
  | .merge _ _ _ => []

/-- The `_table_level_lineage`: `modified` is the raw name of every
table-valued write target; the read tables are all table references minus
`modified` minus the (unqualified) CTE names defined in the statement.
Python sets are modelled as duplicate-free lists. -/
def tableLevelLineage (s : Stmt) : List TableName × List TableName :=
  let modified := (((stmtWriteTargets s).flatMap targetTables).map rawTableName).dedup
  let cteTNs := (stmtCteNames s).map
    (fun n => TableName.mk none none n)
  let tables := (((stmtTables s).map rawTableName).dedup).filter
    (fun tn => decide (¬ tn ∈ modified ∧ ¬ tn ∈ cteTNs))
  (tables, modified)

/-! ### The patched `Scope.traverse` (from _sqlglot_patch.py)

sqlglot scopes form an object graph built while qualifying/analyzing a
statement; a tree-shaped graph is the normal case, but specific usage can
produce a circular scope dependency.  The patch adds a visited set keyed by
`id(scope)` and raises `OptimizeError` when a scope is popped twice.  We
model scopes as numbers (their `id(...)`) with a child map, and model the
patched loop with explicit fuel; `none` marks fuel exhaustion, which the
sufficiency theorem rules out for closed graphs. -/

/-- A scope object graph: the scope ids, the root scope, and each scope's
child scopes (`cte_scopes`/`union_scopes`/... chained together). -/
structure ScopeGraph where
  nodes : List Nat
  root : Nat
  childrenA : List (Nat × List Nat) := []
deriving DecidableEq, Repr

/-- The children of one scope. -/
def scopeChildren (g : ScopeGraph) (n : Nat) : List Nat :=
  (assocFind n g.childrenA).getD []

/-- The patched `Scope.traverse` loop: pop a scope; if it was already
seen raise `OptimizeError` (`.error ()`), else record it and push its
children.  Structurally recursive on fuel; `none` is fuel exhaustion. -/
def traverseAux (children : Nat → List Nat) :
    Nat → List Nat → List Nat → List Nat → Option (Except Unit (List Nat))
  | 0, _, _, _ => none
  | _ + 1, [], _, result => some (.ok result.reverse)
  | fuel + 1, s :: rest, seen, result =>
    if s ∈ seen then some (.error ())
    else traverseAux children fuel (children s ++ rest) (s :: seen) (s :: result)

/-- Remaining work bound: one unit per pending stack entry plus, for every
not-yet-seen scope, one unit for visiting it and one per child it will
push. -/
def scopeWeight (children : Nat → List Nat) (univ seen : List Nat) : Nat :=
  ((univ.filter (fun n => decide (¬ n ∈ seen))).map
    (fun n => 1 + (children n).length)).sum

/-- Fuel sufficient for a full traversal of a closed scope graph. -/
def scopeFuel (g : ScopeGraph) : Nat :=
  2 + scopeWeight (scopeChildren g) g.nodes []

/-- The patched `Scope.traverse` on a scope graph.  For closed graphs the
fuel never runs out (proved below), so the `getD` default is unreachable
there. -/
def scopeTraverse (g : ScopeGraph) : Except Unit (List Nat) :=
  (traverseAux (scopeChildren g) (scopeFuel g) [g.root] [] []).getD (.error ())

/-! ### `_column_level_lineage` and `sqlglot_tester`

The statement handed to `_column_level_lineage` is first simplified
(`sqlglot_tester` lines 452-467): a MERGE is replaced by its USING source
(wrapped in `SELECT *` when it is a table), an INSERT by its source
expression, a CREATE ... AS SELECT by its SELECT.  A statement that is not
select-like afterwards raises `UnsupportedStatementTypeError`; a failure of
the schema-dependent lineage computation raises `SqlOptimizerError`
(wrapping sqlglot's `OptimizeError`). -/

/-- The statement after the simplification step of `sqlglot_tester`. -/
inductive SimplifiedStmt where
  | selectLike (q : SelectQ)
  | nonSelect
deriving DecidableEq, Repr

/-- Simplification of the input statement for column-level lineage. -/
def simplifyStatement : Stmt → SimplifiedStmt
  | .select q => .selectLike q
  | .merge _ u _ =>
    .selectLike { ctes := [], items := [⟨.star, none⟩], sources := [(u, none)], groupBy := [] }
  | .insert _ src => .selectLike src
  | .create _ (some q) => .selectLike q
  | .create _ none => .nonSelect
  | .update _ => .nonSelect
  | .delete _ => .nonSelect

/-- Modelled from the spec: the output-column name after
`sqlglot.optimizer.qualify` (§4.4 numeric/edge policy): the alias when
present, a bare column's own name, `*` for a star, and the positional
placeholder `_col_{i}` for an unnamed non-column expression. -/
def aliasOrNameAt (i : Nat) (it : SelectItem) : String :=
  match it.aliasName with
  | some a => a
  | none =>
    match it.expr with
    | .col _ n => n
    | .star => "*"
    | _ => "_col_" ++ toString i

/-- Rendering of an expression back to SQL text
(`original_col_expression.this.sql(dialect=dialect)`). -/
def sqlOfExpr : SqlExpr → String
  | .col none n => n
  | .col (some t) n => t ++ "." ++ n
  | .star => "*"
  | .sumAgg e => "SUM(" ++ sqlOfExpr e ++ ")"
  | .countStar => "COUNT(*)"

/-- The column references occurring in an expression, with their optional
table qualifiers. -/
def exprColumnRefs : SqlExpr → List (Option String × String)
  | .col t n => [(t, n)]
  | .sumAgg e => exprColumnRefs e
  | .star => []
  | .countStar => []

/-- Find a FROM source by qualifier: its alias when it has one, else its
table name. -/
def findSourceByName (sources : List (TableExpr × Option String)) (q : String) :
    Option (TableExpr × Option String) :=
  sources.find? (fun s =>
    decide (s.2 = some q ∨ (s.2 = none ∧ s.1.name = q)))

/-- Does the resolved schema of a source table contain the column? -/
def schemaHasColumn (schemas : List (TableName × SchemaInfo)) (t : TableExpr)
    (c : String) : Bool :=
  match assocFind (rawTableName t) schemas with
  | some si => (assocFind c si).isSome
  | none => false

/-- Modelled from the spec: schema-aware column qualification inside
`sqlglot.lineage.lineage` (§4.4): a qualified column resolves to the
matching source; an unqualified column resolves to the only source, or to
a source whose schema lists it; otherwise the optimizer fails with
`OptimizeError` ("likely missing table schema info"). -/
def resolveColumnSource (sources : List (TableExpr × Option String))
    (schemas : List (TableName × SchemaInfo)) (q : Option String) (c : String) :
    Except Unit (TableExpr × Option String) :=
  match q with
  | some qual =>
    match findSourceByName sources qual with
    | some s => .ok s
    | none => .error ()
  | none =>
    match sources with
    | [s] => .ok s
    | _ =>
      match sources.find? (fun s => schemaHasColumn schemas s.1 c) with
      | some s => .ok s
      | none => .error ()

/-- A leaf of the lineage graph whose `expression` is an `exp.Table`
(`node.name` is the qualified column rendering `qualifier.column`). -/
structure LineageLeaf where
  name : String
  tableExpr : TableExpr
deriving DecidableEq, Repr

/-- Modelled from the spec: `sqlglot.lineage.lineage` walks the output
column's expression graph to its leaf table-column references (§4.4);
aggregate-only leaves such as `COUNT(*)` contribute none. -/
def lineageLeaves (e : SqlExpr) (sources : List (TableExpr × Option String))
    (schemas : List (TableName × SchemaInfo)) : Except Unit (List LineageLeaf) :=
  (exprColumnRefs e).mapM (fun p =>
    (resolveColumnSource sources schemas p.1 p.2).map (fun s =>
      { name := (match s.2 with | some a => a | none => s.1.name) ++ "." ++ p.2
        tableExpr := s.1 }))

/-- The `col = node.name; if "." in col: col = col.split(".", maxsplit=1)[1]`:
everything after the first dot, or the string unchanged when it has no
dot. -/
def colAfterDot (s : String) : String :=
  match s.data.dropWhile (fun c => !(c = '.')) with
  | [] => s
  | _ :: rest => String.mk rest

/-- The exceptions that can leave `_column_level_lineage`:
`UnsupportedStatementTypeError`, `SqlOptimizerError`, and a Python
`TypeError` from `sorted(direct_col_upstreams)` on incomparable
`ColumnRef`s (which no `except` clause names). -/
inductive ColErr where
  | unsupported
  | optimizer
  | typeError
deriving DecidableEq, Repr

/-- The per-output-column body of the loop in `_column_level_lineage`:
skip `*` and the BigQuery partition pseudo-columns; compute the lineage
leaves; keep the table-valued leaves as deduplicated `ColumnRef`s (taking
the part of the leaf name after the first dot); re-derive a `_col_`
placeholder name from the original expression; sort the upstreams. -/
def processOutputColumn (dialect : String)
    (schemas : List (TableName × SchemaInfo)) (outputTable : Option TableName)
    (sources : List (TableExpr × Option String)) (i : Nat) (it : SelectItem) :
    Except ColErr (Option ColumnLineageInfo) :=
  let output_col := aliasOrNameAt i it
  if output_col = "*" then .ok none
  else if dialect = "bigquery" ∧
      (strToUpper output_col = "_PARTITIONTIME" ∨ strToUpper output_col = "_PARTITIONDATE") then
    .ok none
  else
    match lineageLeaves it.expr sources schemas with
    | .error _ => .error .optimizer
    | .ok leaves =>
      let ups := (leaves.map (fun lf =>
        ColumnRef.mk (rawTableName lf.tableExpr) (colAfterDot lf.name))).dedup
      let output_col :=
        if strStartsWith output_col "_col_" then sqlOfExpr it.expr else output_col
      match sortFallible columnRefLt ups with
      | none => .error .typeError
      | some sorted_ups =>
        .ok (some ⟨⟨outputTable, output_col⟩, sorted_ups⟩)

/-- The `_column_level_lineage`: reject non-select statements, then process
each output column in order; the first raised error aborts the loop. -/
def columnLevelLineage (simplified : SimplifiedStmt) (dialect : String)
    (inputTables : List (TableName × SchemaInfo))
    (outputTable : Option TableName) : Except ColErr (List ColumnLineageInfo) :=
  match simplified with
  | .nonSelect => .error .unsupported
  | .selectLike q =>
    ((q.items.enum).mapM (fun p =>
      processOutputColumn dialect inputTables outputTable q.sources p.1 p.2)).map
      (List.filterMap id)

/-- Qualification of one table reference with the default db / schema
(CTE references are left untouched). -/
def applyDefaultsToSource (ctes : List String) (ddb dsch : Option String)
    (p : TableExpr × Option String) : TableExpr × Option String :=
  if p.1.catalog = none ∧ p.1.db = none ∧ p.1.name ∈ ctes then p
  else
    ({ catalog := (match p.1.catalog with | some c => some c | none => ddb)
       db := (match p.1.db with | some d => some d | none => dsch)
       name := p.1.name }, p.2)

/-- Qualification of a bare table expression (write targets, MERGE
USING). -/
def applyDefaultsToTable (ddb dsch : Option String) (t : TableExpr) : TableExpr :=
  { catalog := (match t.catalog with | some c => some c | none => ddb)
    db := (match t.db with | some d => some d | none => dsch)
    name := t.name }

/-- Qualification of a write target. -/
def applyDefaultsToTarget (ddb dsch : Option String) : TargetExpr → TargetExpr
  | .table t => .table (applyDefaultsToTable ddb dsch t)
  | .nonTable => .nonTable

/-- Qualification of a SELECT: sources of the CTE bodies and of the main
select (references to this statement's CTEs stay unqualified). -/
def applyDefaultsToSelectQ (ddb dsch : Option String) (q : SelectQ) : SelectQ :=
  let ctes := q.ctes.map Prod.fst
  { ctes := q.ctes.map (fun c =>
      (c.1, { c.2 with sources := c.2.sources.map (applyDefaultsToSource ctes ddb dsch) }))
    items := q.items
    sources := q.sources.map (applyDefaultsToSource ctes ddb dsch)
    groupBy := q.groupBy }

/-- Modelled from the spec: the first `sqlglot.optimizer.qualify.qualify`
call of `sqlglot_tester` ("Make sure the tables are resolved with the
default db / schema", `qualify_columns=False`): fill in the default
catalog / db on every table reference that is not a CTE reference. -/
def qualifyStmtTables (ddb dsch : Option String) : Stmt → Stmt
  | .select q => .select (applyDefaultsToSelectQ ddb dsch q)
  | .insert tgt src =>
    .insert (applyDefaultsToTarget ddb dsch tgt) (applyDefaultsToSelectQ ddb dsch src)
  | .create tgt src =>
    .create (applyDefaultsToTarget ddb dsch tgt)
      (src.map (applyDefaultsToSelectQ ddb dsch))
  | .update tgt => .update (applyDefaultsToTarget ddb dsch tgt)
  | .delete tgt => .delete (applyDefaultsToTarget ddb dsch tgt)
  | .merge tgt u wi =>
    .merge (applyDefaultsToTarget ddb dsch tgt) (applyDefaultsToTable ddb dsch u)
      (wi.map (applyDefaultsToTarget ddb dsch))

/-- Schema resolution of the read tables (`for table in tables: ...`),
threading the resolver cache; only truthy schemas are recorded. -/
def resolveReadTables (st : SchemaResolverState) (tables : List TableName) :
    List (TableName × SchemaInfo) :=
  (tables.foldl
    (fun (acc : List (TableName × SchemaInfo) × SchemaResolverState) t =>
      match resolveTable acc.2 t with
      | ((_, some info), st') => (acc.1 ++ [(t, info)], st')
      | ((_, none), st') => (acc.1, st'))
    ([], st)).1

/-- A parsed statement as handed to the pipeline: the AST plus the scope
object graph sqlglot builds for it (tree-shaped in the ordinary case). -/
structure ParsedStatement where
  stmt : Stmt
  scope : ScopeGraph
deriving DecidableEq, Repr

/-- Exceptions escaping `sqlglot_tester`: sqlglot's `OptimizeError`
(raised by the patched cycle guard during qualification, caught by no
`except` clause there) and Python's `TypeError` (raised by `sorted`). -/
inductive TesterError where
  | optimizeError
  | typeError
deriving DecidableEq, Repr

/-- The `sqlglot_tester` (after `_parse_statement`): qualify table names
(traversing the scope graph — a circular scope raises `OptimizeError`,
which no handler catches), compute table-level lineage, resolve read-table
schemas, simplify the statement and attempt column-level lineage —
catching exactly `UnsupportedStatementTypeError` and `SqlOptimizerError`,
which degrade `column_lineage` to `None` — and return the sorted results
(`sorted` raising `TypeError` when table names are incomparable). -/
def sqlglotTester (ps : ParsedStatement) (resolver : SchemaResolverState)
    (default_db default_schema : Option String) :
    Except TesterError SqlParsingResult :=
  match scopeTraverse ps.scope with
  | .error _ => .error .optimizeError
  | .ok _ =>
    let stmt := qualifyStmtTables default_db default_schema ps.stmt
    let tables := (tableLevelLineage stmt).1
    let modified := (tableLevelLineage stmt).2
    let downstream_table := match modified with | [t] => some t | _ => none
    let schemas := resolveReadTables resolver tables
    match columnLevelLineage (simplifyStatement stmt) resolver.platform schemas
        downstream_table with
    | .error .typeError => .error .typeError
    | res =>
      let column_lineage := match res with
        | .ok cl => some cl
        | .error _ => none
      match sortFallible tableNameLt tables, sortFallible tableNameLt modified with
      | some ts, some ms => .ok ⟨ts, ms, column_lineage⟩
      | _, _ => .error .typeError

/-! ### The patched lineage `Node` with `subfield` (from _sqlglot_patch.py)

The patch walks from a source column `c` up through enclosing `exp.Dot`
nodes, collecting their names, and stores `".".join(subfields)` on the
emitted downstream `Node` whose `name` stays `c.sql(comments=False)`. -/

/-- A (possibly nested) field access: the base qualified column with zero
or more enclosing `exp.Dot` accesses. -/
inductive NestedField where
  | base (tbl : String) (column : String)
  | dot (inner : NestedField) (fieldName : String)
deriving DecidableEq, Repr

/-- The names collected by the patch's
`while isinstance(field.parent, exp.Dot)` walk, innermost first. -/
def subfieldParts : NestedField → List String
  | .base _ _ => []
  | .dot inner f => subfieldParts inner ++ [f]

/-- The `subfield = ".".join(subfields)` -/
def computeSubfield (e : NestedField) : String :=
  String.intercalate "." (subfieldParts e)

/-- The `c.sql(comments=False)` of the base column. -/
def baseColumnSql : NestedField → String
  | .base t c => t ++ "." ++ c
  | .dot inner _ => baseColumnSql inner

/-- The patched `sqlglot.lineage.Node` (the fields the claims are about:
its `name` and the added `subfield` attribute). -/
structure PatchedLineageNode where
  name : String
  subfield : String
deriving DecidableEq, Repr

/-- The `Node(name=c.sql(comments=False), ..., subfield=subfield)` as
constructed in the patched `to_node`. -/
def mkDownstreamNode (c : NestedField) : PatchedLineageNode :=
  { name := baseColumnSql c, subfield := computeSubfield c }

/-! ### Concrete inputs used by the theorems below -/

/-- The `sales.orders` as a table expression. -/
def ordersTE : TableExpr := ⟨none, some "sales", "orders"⟩

/-- The `sales.totals` as a table expression. -/
def totalsTE : TableExpr := ⟨none, some "sales", "totals"⟩

/-- The `SELECT customer_id, SUM(amount) AS total FROM sales.orders GROUP BY
customer_id`. -/
def exInsertSelect : SelectQ :=
  { ctes := []
    items := [⟨.col none "customer_id", none⟩, ⟨.sumAgg (.col none "amount"), some "total"⟩]
    sources := [(ordersTE, none)]
    groupBy := [.col none "customer_id"] }

/-- The `INSERT INTO sales.totals SELECT customer_id, SUM(amount) AS total
FROM sales.orders GROUP BY customer_id`. -/
def exInsertStmt : Stmt := .insert (.table totalsTE) exInsertSelect

/-- The ordinary tree-shaped scope graph of a single-select statement. -/
def trivialScope : ScopeGraph := ⟨[0], 0, []⟩

/-- A scope graph with a circular scope dependency (scope 0 and scope 1
each list the other as a child). -/
def cyclicScope : ScopeGraph := ⟨[0, 1], 0, [(0, [1]), (1, [0])]⟩

/-- A resolver that knows `sales.orders` with columns
`{customer_id, amount}` (platform `postgres`, default env). -/
def exInsertResolver : SchemaResolverState :=
  { platform := "postgres"
    cache := [(makeDatasetUrn "postgres" none "PROD" "sales.orders",
               some [("customer_id", "int"), ("amount", "int")])] }

/-- The `WITH cte AS (SELECT * FROM base) SELECT * FROM cte`. -/
def exCteStmt : Stmt := .select
  { ctes := [("cte", { items := [⟨.star, none⟩], sources := [(⟨none, none, "base"⟩, none)] })]
    items := [⟨.star, none⟩]
    sources := [(⟨none, none, "cte"⟩, none)] }

/-- The `INSERT INTO d.s.t SELECT x FROM a, d.s.b`: the column `x` is
unqualified, no schema is known, and the read tables `a` and `d.s.b` are
incomparable under `FrozenModel.__lt__`. -/
def exMixedStmt : Stmt := .insert (.table ⟨some "d", some "s", "t"⟩)
  { ctes := []
    items := [⟨.col none "x", none⟩]
    sources := [(⟨none, none, "a"⟩, none), (⟨some "d", some "s", "b"⟩, none)] }

/-- The `DELETE FROM d.s.t`: not reducible to a SELECT shape. -/
def exDeleteStmt : Stmt := .delete (.table ⟨some "d", some "s", "t"⟩)

/-- A resolver with an empty cache and no catalog. -/
def emptyResolver : SchemaResolverState := { platform := "postgres" }

/-- An observed query with timestamp 100. -/
def exObs100 : ObservedQuery := { query := "Q", timestamp := some 100 }

/-- The same query text observed with the earlier timestamp 50. -/
def exObs50 : ObservedQuery := { query := "Q", timestamp := some 50 }

/-- The `SELECT * FROM x`. -/
def exSimpleStmt : Stmt := .select
  { items := [⟨.star, none⟩], sources := [(⟨none, none, "x"⟩, none)] }

/-- A table name whose table part contains uppercase letters. -/
def exUpperTable : TableName := ⟨none, some "sales", "TBL"⟩

/-- A resolver whose cache knows the schema only under the all-lowercase
urn of `exUpperTable`. -/
def exLowerSeededResolver : SchemaResolverState :=
  { platform := "postgres"
    cache := [(makeDatasetUrn "postgres" none "PROD" "sales.tbl", some [("c", "int")])] }

/-! ## Theorems -/

theorem subfieldParts_foldl (fs : List String) :
    ∀ e, subfieldParts (fs.foldl NestedField.dot e) = subfieldParts e ++ fs := by
  induction fs with
  | nil => intro e; simp
  | cons f fs ih =>
    intro e
    simp only [List.foldl_cons, ih, subfieldParts]
    simp

theorem baseColumnSql_foldl (fs : List String) :
    ∀ e, baseColumnSql (fs.foldl NestedField.dot e) = baseColumnSql e := by
  induction fs with
  | nil => intro e; rfl
  | cons f fs ih => intro e; simp only [List.foldl_cons, ih, baseColumnSql]

/-- C9: for every column-lineage leaf that is a nested-field access, the
patched `to_node` emits a downstream `Node` whose `subfield` is the dotted
path of the enclosing field accesses (the path after the first dot) while
its `name` stays the base qualified column — the reference is not
collapsed to the parent column.  Concretely, `t.a.b.c` yields
`name = "t.a"`, `subfield = "b.c"`. -/
theorem C9_subfield_retained :
    (∀ (t c : String) (fs : List String),
      (mkDownstreamNode (fs.foldl NestedField.dot (NestedField.base t c))).subfield
          = String.intercalate "." fs ∧
      (mkDownstreamNode (fs.foldl NestedField.dot (NestedField.base t c))).name
          = t ++ "." ++ c) ∧
    mkDownstreamNode (.dot (.dot (.base "t" "a") "b") "c") =
      { name := "t.a", subfield := "b.c" } := by
  constructor
  · intro t c fs
    constructor
    · simp [mkDownstreamNode, computeSubfield, subfieldParts_foldl, subfieldParts]
    · simp [mkDownstreamNode, baseColumnSql_foldl, baseColumnSql]
  · rfl

/-- C8 counterexample: a `TableName` with absent database/schema and one
with both present are incomparable — `FrozenModel.__lt__` raises
`TypeError` (modelled as `none`) in both directions, and `sorted` on a
list holding both raises as well, so the comparison does not always
succeed and sorting is not well-defined. -/
theorem C8_counterexample :
    tableNameLt ⟨none, none, "t"⟩ ⟨some "d", some "s", "t"⟩ = none ∧
    tableNameLt ⟨some "d", some "s", "t"⟩ ⟨none, none, "t"⟩ = none ∧
    sortFallible tableNameLt [⟨none, none, "a"⟩, ⟨some "d", some "s", "b"⟩] = none := by
  exact ⟨rfl, rfl, rfl⟩

theorem char_eq_of_toNat_eq {a b : Char} (h : a.toNat = b.toNat) : a = b := by
  apply Char.ext
  apply UInt32.ext
  exact h

theorem strLtAux_asymm : ∀ xs ys : List Char,
    strLtAux xs ys = true → strLtAux ys xs = false := by
  intro xs
  induction xs with
  | nil =>
    intro ys h
    cases ys with
    | nil => simp [strLtAux] at h
    | cons b bs => rfl
  | cons a as ih =>
    intro ys h
    cases ys with
    | nil => simp [strLtAux] at h
    | cons b bs =>
      by_cases h1 : a.toNat < b.toNat
      · simp [strLtAux, Nat.lt_asymm h1, h1]
      · by_cases h2 : b.toNat < a.toNat
        · simp [strLtAux, h1, h2] at h
        · simp only [strLtAux, if_neg h1, if_neg h2] at h
          simp only [strLtAux, if_neg h2, if_neg h1]
          exact ih bs h

theorem strLtAux_trichot : ∀ xs ys : List Char,
    strLtAux xs ys = true ∨ xs = ys ∨ strLtAux ys xs = true := by
  intro xs
  induction xs with
  | nil =>
    intro ys
    cases ys with
    | nil => exact Or.inr (Or.inl rfl)
    | cons b bs => exact Or.inl rfl
  | cons a as ih =>
    intro ys
    cases ys with
    | nil => exact Or.inr (Or.inr rfl)
    | cons b bs =>
      rcases Nat.lt_trichotomy a.toNat b.toNat with h1 | h1 | h1
      · exact Or.inl (by simp [strLtAux, h1])
      · have hab : a = b := char_eq_of_toNat_eq h1
        subst hab
        rcases ih bs with h | h | h
        · exact Or.inl (by simp [strLtAux, h])
        · exact Or.inr (Or.inl (by rw [h]))
        · exact Or.inr (Or.inr (by simp [strLtAux, h]))
      · exact Or.inr (Or.inr (by simp [strLtAux, h1, Nat.lt_asymm h1]))

theorem strLt_asymm {x y : String} (h : strLt x y = true) : strLt y x = false :=
  strLtAux_asymm x.data y.data h

theorem strLt_trichot (x y : String) :
    strLt x y = true ∨ x = y ∨ strLt y x = true := by
  rcases strLtAux_trichot x.data y.data with h | h | h
  · exact Or.inl h
  · refine Or.inr (Or.inl ?_)
    cases x with
    | mk xs =>
      cases y with
      | mk ys => exact congrArg String.mk h
  · exact Or.inr (Or.inr h)

/-- C8 (amended): on `TableName`s whose optional components match in
presence, the comparison always succeeds and exactly one of `a < b`,
`a = b`, `b < a` holds. -/
theorem C8_trichotomy (a b : TableName)
    (hdb : a.database.isSome = b.database.isSome)
    (hsch : a.db_schema.isSome = b.db_schema.isSome) :
    (∃ r, tableNameLt a b = some r) ∧
    ((tableNameLt a b = some true ∧ a ≠ b ∧ tableNameLt b a = some false) ∨
     (a = b ∧ tableNameLt a b = some false ∧ tableNameLt b a = some false) ∨
     (tableNameLt b a = some true ∧ a ≠ b ∧ tableNameLt a b = some false)) := by
  obtain ⟨da, sa, ta⟩ := a
  obtain ⟨db, sb, tb⟩ := b
  have main :
      (tableNameLt ⟨da, sa, ta⟩ ⟨db, sb, tb⟩ = some true ∧
        (⟨da, sa, ta⟩ : TableName) ≠ ⟨db, sb, tb⟩ ∧
        tableNameLt ⟨db, sb, tb⟩ ⟨da, sa, ta⟩ = some false) ∨
      ((⟨da, sa, ta⟩ : TableName) = ⟨db, sb, tb⟩ ∧
        tableNameLt ⟨da, sa, ta⟩ ⟨db, sb, tb⟩ = some false ∧
        tableNameLt ⟨db, sb, tb⟩ ⟨da, sa, ta⟩ = some false) ∨
      (tableNameLt ⟨db, sb, tb⟩ ⟨da, sa, ta⟩ = some true ∧
        (⟨da, sa, ta⟩ : TableName) ≠ ⟨db, sb, tb⟩ ∧
        tableNameLt ⟨da, sa, ta⟩ ⟨db, sb, tb⟩ = some false) := by
    by_cases h1 : da = db
    · subst h1
      by_cases h2 : sa = sb
      · subst h2
        by_cases h3 : ta = tb
        · subst h3
          exact Or.inr (Or.inl (by simp [tableNameLt]))
        · rcases strLt_trichot ta tb with hlt | heq | hgt
          · refine Or.inl ⟨?_, ?_, ?_⟩
            · simp [tableNameLt, h3, hlt]
            · simp [TableName.mk.injEq, h3]
            · simp [tableNameLt, Ne.symm h3, strLt_asymm hlt]
          · exact absurd heq h3
          · refine Or.inr (Or.inr ⟨?_, ?_, ?_⟩)
            · simp [tableNameLt, Ne.symm h3, hgt]
            · simp [TableName.mk.injEq, h3]
            · simp [tableNameLt, h3, strLt_asymm hgt]
      · match sa, sb, hsch with
        | none, none, _ => exact absurd rfl h2
        | some x, some y, _ =>
          have hxy : x ≠ y := fun h => h2 (by rw [h])
          rcases strLt_trichot x y with hlt | heq | hgt
          · refine Or.inl ⟨?_, ?_, ?_⟩
            · simp [tableNameLt, h2, optFieldLt, hlt]
            · simp [TableName.mk.injEq, h2]
            · simp [tableNameLt, Ne.symm h2, optFieldLt, strLt_asymm hlt]
          · exact absurd (by rw [heq]) h2
          · refine Or.inr (Or.inr ⟨?_, ?_, ?_⟩)
            · simp [tableNameLt, Ne.symm h2, optFieldLt, hgt]
            · simp [TableName.mk.injEq, h2]
            · simp [tableNameLt, h2, optFieldLt, strLt_asymm hgt]
    · match da, db, hdb with
      | none, none, _ => exact absurd rfl h1
      | some x, some y, _ =>
        have hxy : x ≠ y := fun h => h1 (by rw [h])
        rcases strLt_trichot x y with hlt | heq | hgt
        · refine Or.inl ⟨?_, ?_, ?_⟩
          · simp [tableNameLt, h1, optFieldLt, hlt]
          · simp [TableName.mk.injEq, h1]
          · simp [tableNameLt, Ne.symm h1, optFieldLt, strLt_asymm hlt]
        · exact absurd (by rw [heq]) h1
        · refine Or.inr (Or.inr ⟨?_, ?_, ?_⟩)
          · simp [tableNameLt, Ne.symm h1, optFieldLt, hgt]
          · simp [TableName.mk.injEq, h1]
          · simp [tableNameLt, h1, optFieldLt, strLt_asymm hgt]
  refine ⟨?_, main⟩
  rcases main with ⟨h, _, _⟩ | ⟨_, h, _⟩ | ⟨_, _, h⟩
  · exact ⟨true, h⟩
  · exact ⟨false, h⟩
  · exact ⟨false, h⟩

/-- C8 witness: the amended trichotomy at two fully qualified names. -/
theorem C8_trichotomy_witness :
    (∃ r, tableNameLt ⟨some "a", some "s", "t"⟩ ⟨some "b", some "s", "t"⟩ = some r) ∧
    ((tableNameLt ⟨some "a", some "s", "t"⟩ ⟨some "b", some "s", "t"⟩ = some true ∧
        (⟨some "a", some "s", "t"⟩ : TableName) ≠ ⟨some "b", some "s", "t"⟩ ∧
        tableNameLt ⟨some "b", some "s", "t"⟩ ⟨some "a", some "s", "t"⟩ = some false) ∨
     ((⟨some "a", some "s", "t"⟩ : TableName) = ⟨some "b", some "s", "t"⟩ ∧
        tableNameLt ⟨some "a", some "s", "t"⟩ ⟨some "b", some "s", "t"⟩ = some false ∧
        tableNameLt ⟨some "b", some "s", "t"⟩ ⟨some "a", some "s", "t"⟩ = some false) ∨
     (tableNameLt ⟨some "b", some "s", "t"⟩ ⟨some "a", some "s", "t"⟩ = some true ∧
        (⟨some "a", some "s", "t"⟩ : TableName) ≠ ⟨some "b", some "s", "t"⟩ ∧
        tableNameLt ⟨some "a", some "s", "t"⟩ ⟨some "b", some "s", "t"⟩ = some false)) :=
  C8_trichotomy ⟨some "a", some "s", "t"⟩ ⟨some "b", some "s", "t"⟩ rfl rfl

theorem assocFind_eq_none_iff [DecidableEq α] (k : α) (l : List (α × β)) :
    assocFind k l = none ↔ k ∉ l.map Prod.fst := by
  induction l with
  | nil => simp [assocFind]
  | cons p rest ih =>
    obtain ⟨k', v⟩ := p
    by_cases h : k' = k
    · subst h
      simp [assocFind]
    · simp [assocFind, h, ih, Ne.symm h]

theorem assocFind_some_mem [DecidableEq α] {k : α} {l : List (α × β)} {v : β}
    (h : assocFind k l = some v) : (k, v) ∈ l := by
  induction l with
  | nil => simp [assocFind] at h
  | cons p rest ih =>
    obtain ⟨k', v'⟩ := p
    by_cases hk : k' = k
    · subst hk
      simp [assocFind] at h
      simp [h]
    · simp [assocFind, hk] at h
      simp [ih h]

theorem mem_assocSet [DecidableEq α] {p : α × β} {k : α} {v : β}
    {l : List (α × β)} (h : p ∈ assocSet k v l) : p = (k, v) ∨ p ∈ l := by
  induction l with
  | nil => simp [assocSet] at h; simp [h]
  | cons q rest ih =>
    obtain ⟨k', v'⟩ := q
    by_cases hk : k' = k
    · subst hk
      simp [assocSet] at h
      rcases h with h | h
      · exact Or.inl h
      · exact Or.inr (List.mem_cons_of_mem _ h)
    · simp [assocSet, hk] at h
      rcases h with h | h
      · exact Or.inr (by simp [h])
      · rcases ih h with h' | h'
        · exact Or.inl h'
        · exact Or.inr (List.mem_cons_of_mem _ h')

theorem keys_assocSet [DecidableEq α] (k : α) (v : β) (l : List (α × β)) :
    (assocSet k v l).map Prod.fst =
      if k ∈ l.map Prod.fst then l.map Prod.fst else l.map Prod.fst ++ [k] := by
  induction l with
  | nil => simp [assocSet]
  | cons q rest ih =>
    obtain ⟨k', v'⟩ := q
    by_cases hk : k' = k
    · subst hk
      simp [assocSet]
    · simp only [assocSet, if_neg hk, List.map_cons, ih]
      by_cases hmem : k ∈ rest.map Prod.fst
      · simp [hmem, Ne.symm hk]
      · simp [hmem, Ne.symm hk]

theorem nodup_keys_assocSet [DecidableEq α] {k : α} {v : β} {l : List (α × β)}
    (h : (l.map Prod.fst).Nodup) : ((assocSet k v l).map Prod.fst).Nodup := by
  rw [keys_assocSet]
  by_cases hmem : k ∈ l.map Prod.fst
  · simpa [hmem] using h
  · simp only [if_neg hmem]
    simp [List.nodup_append, h, hmem]

theorem dedupWellKeyed_dedupSet {st : DedupState} (fp : String) (tb : Int)
    (v : ObservedQuery) (h : DedupWellKeyed st) :
    DedupWellKeyed (dedupSet st fp tb v) := by
  obtain ⟨houter, hinner⟩ := h
  unfold dedupSet
  cases hfind : assocFind fp st with
  | none =>
    refine ⟨?_, ?_⟩
    · rw [List.map_append]
      simp only [List.map_cons, List.map_nil]
      rw [List.nodup_append]
      refine ⟨houter, List.nodup_singleton _, ?_⟩
      intro x hx hy
      simp at hy
      rw [hy] at hx
      exact (assocFind_eq_none_iff fp st).mp hfind hx
    · intro p hp
      rcases List.mem_append.mp hp with h' | h'
      · exact hinner p h'
      · simp at h'
        subst h'
        simp
  | some inner =>
    refine ⟨?_, ?_⟩
    · exact nodup_keys_assocSet houter
    · intro p hp
      rcases mem_assocSet hp with h' | h'
      · subst h'
        exact nodup_keys_assocSet (hinner (fp, inner) (assocFind_some_mem hfind))
      · exact hinner p h'

theorem dedupWellKeyed_dedupStep (bucketOf : Int → Int)
    (fingerprintOf : String → String) {st : DedupState} (q : ObservedQuery)
    (h : DedupWellKeyed st) :
    DedupWellKeyed (dedupStep bucketOf fingerprintOf st q) := by
  simp only [dedupStep]
  split
  · exact dedupWellKeyed_dedupSet _ _ _ h
  · exact dedupWellKeyed_dedupSet _ _ _ h

theorem dedupWellKeyed_foldl (bucketOf : Int → Int)
    (fingerprintOf : String → String) (queries : List ObservedQuery) :
    ∀ st : DedupState, DedupWellKeyed st →
      DedupWellKeyed (queries.foldl (dedupStep bucketOf fingerprintOf) st) := by
  induction queries with
  | nil => intro st h; exact h
  | cons q rest ih =>
    intro st h
    exact ih _ (dedupWellKeyed_dedupStep bucketOf fingerprintOf q h)

theorem dedup_replicate_aux (bucketOf : Int → Int)
    (fingerprintOf : String → String) (q : ObservedQuery) :
    ∀ (m k : Nat),
      List.foldl (dedupStep bucketOf fingerprintOf)
        [(fingerprintOf q.query,
          [(dedupBucket bucketOf q,
            { q with query_hash := some (fingerprintOf q.query),
                     usage_multiplier := k })])]
        (List.replicate m q) =
      [(fingerprintOf q.query,
        [(dedupBucket bucketOf q,
          { q with query_hash := some (fingerprintOf q.query),
                   usage_multiplier := k + m })])] := by
  intro m
  induction m with
  | zero => intro k; rfl
  | succ m ih =>
    intro k
    rw [List.replicate_succ, List.foldl_cons]
    have hstep :
        dedupStep bucketOf fingerprintOf
          [(fingerprintOf q.query,
            [(dedupBucket bucketOf q,
              { q with query_hash := some (fingerprintOf q.query),
                       usage_multiplier := k })])] q =
        [(fingerprintOf q.query,
          [(dedupBucket bucketOf q,
            { q with query_hash := some (fingerprintOf q.query),
                     usage_multiplier := k + 1 })])] := by
      simp [dedupStep, dedupFind, dedupSet, assocFind, assocSet]
    rw [hstep, ih (k + 1)]
    have : k + 1 + m = k + (m + 1) := by omega
    rw [this]

/-- C3: the deduplication map keeps at most one representative per
`(time bucket, query fingerprint)` key (duplicate-free outer and inner
keys), and adding the same `ObservedQuery` N times (with the default
`usage_multiplier = 1`) leaves exactly one representative whose
`usage_multiplier` is N. -/
theorem C3_dedup_invariant :
    (∀ (bucketOf : Int → Int) (fingerprintOf : String → String)
        (queries : List ObservedQuery),
      DedupWellKeyed (deduplicateQueries bucketOf fingerprintOf queries)) ∧
    (∀ (bucketOf : Int → Int) (fingerprintOf : String → String)
        (q : ObservedQuery) (n : Nat), 0 < n → q.usage_multiplier = 1 →
      deduplicateQueries bucketOf fingerprintOf (List.replicate n q) =
        [(fingerprintOf q.query,
          [(dedupBucket bucketOf q,
            { q with query_hash := some (fingerprintOf q.query),
                     usage_multiplier := n })])]) := by
  constructor
  · intro bucketOf fingerprintOf queries
    exact dedupWellKeyed_foldl bucketOf fingerprintOf queries []
      ⟨List.nodup_nil, by simp⟩
  · intro bucketOf fingerprintOf q n hn hq
    obtain ⟨m, rfl⟩ : ∃ m, n = m + 1 :=
      ⟨n - 1, by omega⟩
    rw [List.replicate_succ, deduplicateQueries, List.foldl_cons]
    have hfirst :
        dedupStep bucketOf fingerprintOf [] q =
        [(fingerprintOf q.query,
          [(dedupBucket bucketOf q,
            { q with query_hash := some (fingerprintOf q.query),
                     usage_multiplier := 1 })])] := by
      simp [dedupStep, dedupFind, dedupSet, assocFind]
      rw [← hq]
    rw [hfirst, dedup_replicate_aux bucketOf fingerprintOf q m 1]
    have : 1 + m = m + 1 := by omega
    rw [this]

/-- C3 witness: the invariant on a concrete log, and three additions of
the same observed query collapsing to one representative with
`usage_multiplier = 3`. -/
theorem C3_dedup_witness :
    DedupWellKeyed
      (deduplicateQueries (fun _ => 0) (fun s => s) [exObs100, exObs50]) ∧
    deduplicateQueries (fun _ => 0) (fun s => s) (List.replicate 3 exObs100) =
      [("Q", [(0, { query := "Q", timestamp := some 100,
                    query_hash := some "Q", usage_multiplier := 3 })])] := by
  refine ⟨C3_dedup_invariant.1 _ _ _, ?_⟩
  have h := C3_dedup_invariant.2 (fun _ => 0) (fun s => s) exObs100 3
    (by decide) rfl
  exact h

/-- C4 counterexample: merging a later-arriving observation with an
earlier timestamp overwrites the representative's timestamp with the new
(smaller) value — the stored timestamp ends at 50, not
`max(100, 50) = 100`, so it decreases. -/
theorem C4_counterexample :
    deduplicateQueries (fun _ => 0) (fun s => s) [exObs100, exObs50] =
      [("Q", [(0, { query := "Q", timestamp := some 50,
                    query_hash := some "Q", usage_multiplier := 2 })])] ∧
    (50 : Int) < 100 ∧ some (50 : Int) ≠ some (max (100 : Int) 50) := by
  exact ⟨rfl, by decide, by decide⟩

theorem dedup_last_write_aux (bucketOf : Int → Int)
    (fingerprintOf : String → String) (q : ObservedQuery) (b : Int) :
    ∀ (ts : List Int) (rep : ObservedQuery), (∀ t ∈ ts, bucketOf t = b) →
      ∃ rep',
        List.foldl (dedupStep bucketOf fingerprintOf)
          [(fingerprintOf q.query, [(b, rep)])]
          (ts.map (fun t => { q with timestamp := some t })) =
          [(fingerprintOf q.query, [(b, rep')])] ∧
        rep'.timestamp = (if ts = [] then rep.timestamp else ts.getLast?) := by
  intro ts
  induction ts with
  | nil => intro rep _; exact ⟨rep, rfl, by simp⟩
  | cons t rest ih =>
    intro rep hb
    have hstep :
        dedupStep bucketOf fingerprintOf
          [(fingerprintOf q.query, [(b, rep)])]
          { q with timestamp := some t } =
        [(fingerprintOf q.query,
          [(b, { rep with usage_multiplier := rep.usage_multiplier + 1,
                          timestamp := some t })])] := by
      simp [dedupStep, dedupFind, dedupSet, assocFind, assocSet, dedupBucket,
        hb t (by simp)]
    rw [List.map_cons, List.foldl_cons, hstep]
    obtain ⟨rep', heq, hts⟩ := ih
      { rep with usage_multiplier := rep.usage_multiplier + 1,
                 timestamp := some t }
      (fun t' ht' => hb t' (by simp [ht']))
    refine ⟨rep', heq, ?_⟩
    rw [hts]
    cases rest with
    | nil => simp
    | cons t' rest' => simp [List.getLast?]

/-- C4 (amended): on every merge the representative's timestamp is
overwritten with the newly arrived observation's timestamp (last write
wins, not `max`): after any nonempty same-bucket run of observations of
one query text, the stored timestamp equals the timestamp of the **last**
arrival. -/
theorem C4_timestamp_last_write (bucketOf : Int → Int)
    (fingerprintOf : String → String) (q : ObservedQuery) (ts : List Int)
    (b : Int) (hne : ts ≠ []) (hb : ∀ t ∈ ts, bucketOf t = b) :
    ∃ rep,
      dedupFind
        (deduplicateQueries bucketOf fingerprintOf
          (ts.map (fun t => { q with timestamp := some t })))
        (fingerprintOf q.query) b = some rep ∧
      rep.timestamp = ts.getLast? := by
  obtain ⟨t, rest, rfl⟩ : ∃ t rest, ts = t :: rest := by
    cases ts with
    | nil => exact absurd rfl hne
    | cons t rest => exact ⟨t, rest, rfl⟩
  rw [List.map_cons, deduplicateQueries, List.foldl_cons]
  have hfirst :
      dedupStep bucketOf fingerprintOf [] { q with timestamp := some t } =
      [(fingerprintOf q.query,
        [(b, { q with timestamp := some t, query_hash := some (fingerprintOf q.query) })])] := by
    simp [dedupStep, dedupFind, dedupSet, assocFind, dedupBucket,
      hb t (by simp)]
  rw [hfirst]
  obtain ⟨rep', heq, hts⟩ := dedup_last_write_aux bucketOf fingerprintOf q b
    rest
    { q with timestamp := some t, query_hash := some (fingerprintOf q.query) }
    (fun t' ht' => hb t' (by simp [ht']))
  refine ⟨rep', ?_, ?_⟩
  · rw [heq]
    simp [dedupFind, assocFind]
  · rw [hts]
    cases rest with
    | nil => simp
    | cons t' rest' => simp [List.getLast?]

/-- C4 witness: the amended last-write-wins behavior at the concrete
arrival order `[100, 50]` — the final timestamp is the last arrival 50. -/
theorem C4_timestamp_last_write_witness :
    ∃ rep,
      dedupFind
        (deduplicateQueries (fun _ => 0) (fun s => s)
          ([(100 : Int), 50].map (fun t => { exObs100 with timestamp := some t })))
        "Q" 0 = some rep ∧
      rep.timestamp = some 50 := by
  have h := C4_timestamp_last_write (fun _ => 0) (fun s => s) exObs100
    [(100 : Int), 50] 0 (by decide) (fun t _ => rfl)
  exact h

/-- C2: for every statement, the read-table set extracted by
`_table_level_lineage` is exactly the set of all table references minus
the write-target set minus the (unqualified) CTE names defined in the
statement; in particular
`WITH cte AS (SELECT * FROM base) SELECT * FROM cte` reads `{base}` and
not `cte`. -/
theorem C2_read_tables :
    (∀ (s : Stmt) (tn : TableName),
      tn ∈ (tableLevelLineage s).1 ↔
        (tn ∈ (stmtTables s).map rawTableName ∧
         tn ∉ ((stmtWriteTargets s).flatMap targetTables).map rawTableName ∧
         tn ∉ (stmtCteNames s).map (fun n => TableName.mk none none n))) ∧
    tableLevelLineage exCteStmt = ([⟨none, none, "base"⟩], []) := by
  constructor
  · intro s tn
    simp only [tableLevelLineage, List.mem_filter, List.mem_dedup,
      decide_eq_true_eq]
  · rfl

theorem assocFind_assocSet_ne [DecidableEq α] {k k' : α} (h : k ≠ k') (v : β)
    (l : List (α × β)) : assocFind k (assocSet k' v l) = assocFind k l := by
  induction l with
  | nil => simp [assocSet, assocFind, Ne.symm h]
  | cons p rest ih =>
    obtain ⟨k'', v''⟩ := p
    by_cases hk : k'' = k'
    · subst hk
      simp [assocSet, assocFind, Ne.symm h]
    · simp [assocSet, assocFind, hk, ih]

theorem resolveSchemaInfo_fst_eq (st st' : SchemaResolverState) (urn : String)
    (hc : assocFind urn st.cache = assocFind urn st'.cache)
    (hg : st.graph = st'.graph) :
    (resolveSchemaInfo st urn).1 = (resolveSchemaInfo st' urn).1 := by
  unfold resolveSchemaInfo
  rw [hc, hg]
  cases assocFind urn st'.cache with
  | some v => rfl
  | none =>
    cases st'.graph.bind (assocFind urn) with
    | none => rfl
    | some si =>
      by_cases hsi : si ≠ [] <;> simp [hsi]

theorem resolveSchemaInfo_snd_preserves (st : SchemaResolverState)
    (u uL : String) (hne : uL ≠ u) :
    assocFind uL ((resolveSchemaInfo st u).2).cache = assocFind uL st.cache ∧
    ((resolveSchemaInfo st u).2).graph = st.graph := by
  unfold resolveSchemaInfo
  cases assocFind u st.cache with
  | some v => exact ⟨rfl, rfl⟩
  | none =>
    cases st.graph.bind (assocFind u) with
    | none => exact ⟨assocFind_assocSet_ne hne _ _, rfl⟩
    | some si =>
      by_cases hsi : si ≠ [] <;>
        simp [hsi, assocFind_assocSet_ne hne]

theorem resolveSchemaInfo_retry_fst (st : SchemaResolverState) (u uL : String)
    (hne : uL ≠ u) :
    (resolveSchemaInfo (resolveSchemaInfo st u).2 uL).1 =
      (resolveSchemaInfo st uL).1 := by
  obtain ⟨hc, hg⟩ := resolveSchemaInfo_snd_preserves st u uL hne
  exact resolveSchemaInfo_fst_eq _ _ uL hc hg

theorem truthySchema_ne_none {s : Option SchemaInfo}
    (h : truthySchema s = true) : s ≠ none := by
  cases s with
  | none => simp [truthySchema] at h
  | some l => simp

/-- C6: `resolve_table` never raises (it is a total function here); it
first looks up the urn built from the table as given; a miss is reported
as `None`, and happens exactly when neither the original urn nor the
all-lowercase urn yields a truthy schema — i.e. after the single lowercase
retry; on a full miss the returned urn is the lowercase one. -/
theorem C6_resolve_semantics (st : SchemaResolverState) (t : TableName) :
    (truthySchema (resolveSchemaInfo st (getUrnForTable st t false)).1 →
      resolveTable st t =
        ((getUrnForTable st t false,
          (resolveSchemaInfo st (getUrnForTable st t false)).1),
         (resolveSchemaInfo st (getUrnForTable st t false)).2)) ∧
    ((resolveTable st t).1.2 = none ↔
      (¬ truthySchema (resolveSchemaInfo st (getUrnForTable st t false)).1 ∧
       ¬ truthySchema (resolveSchemaInfo st (getUrnForTable st t true)).1)) ∧
    ((resolveTable st t).1.2 = none →
      (resolveTable st t).1.1 = getUrnForTable st t true) := by
  by_cases h1 : truthySchema (resolveSchemaInfo st (getUrnForTable st t false)).1
  · have hres : resolveTable st t =
        ((getUrnForTable st t false,
          (resolveSchemaInfo st (getUrnForTable st t false)).1),
         (resolveSchemaInfo st (getUrnForTable st t false)).2) := by
      simp [resolveTable, h1]
    refine ⟨fun _ => hres, ?_, ?_⟩
    · rw [hres]
      constructor
      · intro hnone
        exact absurd hnone (truthySchema_ne_none h1)
      · intro h
        exact absurd h1 h.1
    · rw [hres]
      intro hnone
      exact absurd hnone (truthySchema_ne_none h1)
  · by_cases hne : getUrnForTable st t true = getUrnForTable st t false
    · have hres : resolveTable st t =
          ((getUrnForTable st t true, none),
           (resolveSchemaInfo st (getUrnForTable st t false)).2) := by
        simp [resolveTable, if_neg h1, hne]
      refine ⟨fun h => absurd h h1, ?_, ?_⟩
      · rw [hres]
        constructor
        · intro _
          exact ⟨h1, by rw [hne]; exact h1⟩
        · intro _
          rfl
      · intro _
        rw [hres]
    · have hretry := resolveSchemaInfo_retry_fst st (getUrnForTable st t false)
        (getUrnForTable st t true) hne
      by_cases h2 : truthySchema
          (resolveSchemaInfo
            (resolveSchemaInfo st (getUrnForTable st t false)).2
            (getUrnForTable st t true)).1
      · have hres : resolveTable st t =
            ((getUrnForTable st t true,
              (resolveSchemaInfo
                (resolveSchemaInfo st (getUrnForTable st t false)).2
                (getUrnForTable st t true)).1),
             (resolveSchemaInfo
               (resolveSchemaInfo st (getUrnForTable st t false)).2
               (getUrnForTable st t true)).2) := by
          simp [resolveTable, if_neg h1, hne, if_pos h2]
        refine ⟨fun h => absurd h h1, ?_, ?_⟩
        · rw [hres]
          constructor
          · intro hnone
            exact absurd hnone (truthySchema_ne_none h2)
          · intro h
            rw [← hretry] at h
            exact absurd h2 h.2
        · rw [hres]
          intro hnone
          exact absurd hnone (truthySchema_ne_none h2)
      · have hres : resolveTable st t =
            ((getUrnForTable st t true, none),
             (resolveSchemaInfo
               (resolveSchemaInfo st (getUrnForTable st t false)).2
               (getUrnForTable st t true)).2) := by
          simp [resolveTable, if_neg h1, hne, if_neg h2]
        refine ⟨fun h => absurd h h1, ?_, ?_⟩
        · rw [hres]
          constructor
          · intro _
            refine ⟨h1, ?_⟩
            rw [← hretry]
            exact h2
          · intro _
            rfl
        · intro _
          rw [hres]

/-- C6 witness: on an empty resolver the lookup misses and the returned
urn is the lowercase one. -/
theorem C6_resolve_semantics_witness :
    (resolveTable emptyResolver exUpperTable).1.1 =
      getUrnForTable emptyResolver exUpperTable true :=
  (C6_resolve_semantics emptyResolver exUpperTable).2.2 (by rfl)

theorem weight_cons (children : Nat → List Nat) (univ seen : List Nat)
    (s : Nat) (hnd : univ.Nodup) (hs : s ∈ univ) (hns : s ∉ seen) :
    scopeWeight children univ seen =
      1 + (children s).length + scopeWeight children univ (s :: seen) := by
  unfold scopeWeight
  have hfilter :
      univ.filter (fun n => decide (¬ n ∈ s :: seen)) =
        (univ.filter (fun n => decide (¬ n ∈ seen))).filter
          (fun n => decide (¬ n = s)) := by
    rw [List.filter_filter]
    apply List.filter_congr
    intro a _
    by_cases h1 : a ∈ seen <;> by_cases h2 : a = s <;>
      simp [h1, h2, List.mem_cons]
  have hsL : s ∈ univ.filter (fun n => decide (¬ n ∈ seen)) :=
    List.mem_filter.mpr ⟨hs, by simp [hns]⟩
  have hndL : (univ.filter (fun n => decide (¬ n ∈ seen))).Nodup :=
    hnd.filter _
  have herase :
      (univ.filter (fun n => decide (¬ n ∈ seen))).erase s =
        (univ.filter (fun n => decide (¬ n ∈ seen))).filter
          (fun n => decide (¬ n = s)) := by
    rw [hndL.erase_eq_filter]
    apply List.filter_congr
    intro a _
    by_cases h2 : a = s <;> simp [h2]
  have hperm :
      List.Perm (univ.filter (fun n => decide (¬ n ∈ seen)))
        (s :: (univ.filter (fun n => decide (¬ n ∈ seen))).erase s) :=
    List.perm_cons_erase hsL
  have hsum :=
    (hperm.map (fun n => 1 + (children n).length)).sum_eq
  rw [hsum, hfilter, ← herase]
  simp [Nat.add_assoc]

theorem traverseAux_isSome (children : Nat → List Nat) (univ : List Nat)
    (hclosed : ∀ n ∈ univ, ∀ c ∈ children n, c ∈ univ) (hnd : univ.Nodup) :
    ∀ (fuel : Nat) (stack seen result : List Nat),
      (∀ x ∈ stack, x ∈ univ) →
      stack.length + scopeWeight children univ seen + 1 ≤ fuel →
      (traverseAux children fuel stack seen result).isSome := by
  intro fuel
  induction fuel with
  | zero =>
    intro stack seen result _ hle
    omega
  | succ fuel ih =>
    intro stack seen result hstack hle
    cases stack with
    | nil => simp [traverseAux]
    | cons s rest =>
      by_cases hseen : s ∈ seen
      · simp [traverseAux, hseen]
      · simp only [traverseAux, if_neg hseen]
        apply ih
        · intro x hx
          rcases List.mem_append.mp hx with h | h
          · exact hclosed s (hstack s (by simp)) x h
          · exact hstack x (by simp [h])
        · have hw := weight_cons children univ seen s hnd
            (hstack s (by simp)) hseen
          have hlen : (children s ++ rest).length =
              (children s).length + rest.length := List.length_append _ _
          simp only [List.length_cons] at hle
          omega

/-- C7 counterexample: on a statement whose scope graph is circular, the
patched traversal raises `OptimizeError`, and `sqlglot_tester` — whose
`except` clauses name only `UnsupportedStatementTypeError` and
`SqlOptimizerError` — lets it escape: the statement is not skipped with a
warning, the error crashes out of the parsing entry point. -/
theorem C7_counterexample :
    scopeTraverse cyclicScope = .error () ∧
    sqlglotTester ⟨exSimpleStmt, cyclicScope⟩ emptyResolver none none =
      .error .optimizeError := by
  exact ⟨rfl, rfl⟩

/-- C7 (amended): the visited-set guard makes scope traversal terminate on
every closed scope graph (the fuel bound is never exhausted), and when the
traversal detects a circular scope the raised `OptimizeError` propagates
out of `sqlglot_tester` uncaught — it is not handled like a parse error. -/
theorem C7_cycle_guard :
    (∀ g : ScopeGraph, g.nodes.Nodup → g.root ∈ g.nodes →
      (∀ n ∈ g.nodes, ∀ c ∈ scopeChildren g n, c ∈ g.nodes) →
      (traverseAux (scopeChildren g) (scopeFuel g) [g.root] [] []).isSome) ∧
    (∀ (ps : ParsedStatement) (resolver : SchemaResolverState)
        (ddb dsch : Option String),
      scopeTraverse ps.scope = .error () →
      sqlglotTester ps resolver ddb dsch = .error .optimizeError) := by
  constructor
  · intro g hnd hroot hclosed
    apply traverseAux_isSome (scopeChildren g) g.nodes hclosed hnd
    · intro x hx
      simp at hx
      rw [hx]
      exact hroot
    · simp only [List.length_cons, List.length_nil, scopeFuel]
      omega
  · intro ps resolver ddb dsch h
    unfold sqlglotTester
    rw [h]

/-- C7 witness: the termination bound on the ordinary tree-shaped graph,
and the escape of the circular-scope error on a concrete CTE statement. -/
theorem C7_cycle_guard_witness :
    (traverseAux (scopeChildren trivialScope) (scopeFuel trivialScope)
      [trivialScope.root] [] []).isSome ∧
    sqlglotTester ⟨exCteStmt, cyclicScope⟩ emptyResolver none none =
      .error .optimizeError := by
  refine ⟨C7_cycle_guard.1 trivialScope ?_ ?_ ?_, C7_cycle_guard.2 ⟨exCteStmt, cyclicScope⟩ emptyResolver none none rfl⟩
  · decide
  · decide
  · decide

/-- C10 counterexample: when the schema is registered only under the
all-lowercase urn, `resolve_table` on an uppercase table succeeds — no
miss — and the caller still receives the case-normalized urn, refuting
"the urn a caller receives is case-normalized exactly when schema
resolution misses". -/
theorem C10_counterexample :
    (resolveTable exLowerSeededResolver exUpperTable).1.1 =
      getUrnForTable exLowerSeededResolver exUpperTable true ∧
    getUrnForTable exLowerSeededResolver exUpperTable true ≠
      getUrnForTable exLowerSeededResolver exUpperTable false ∧
    (resolveTable exLowerSeededResolver exUpperTable).1.2 =
      some [("c", "int")] := by
  refine ⟨rfl, ?_, rfl⟩
  decide

/-- C10 (amended): when the lowercase urn differs from the original one,
the caller receives the original-case urn exactly when the original-case
lookup finds a truthy schema (so a full miss — and also a lowercase-only
hit — returns the normalized urn); on a full miss the result is the
lowercase urn paired with `None`. -/
theorem C10_urn_case (st : SchemaResolverState) (t : TableName)
    (hne : getUrnForTable st t true ≠ getUrnForTable st t false) :
    ((resolveTable st t).1.1 = getUrnForTable st t false ↔
      truthySchema (resolveSchemaInfo st (getUrnForTable st t false)).1) ∧
    (¬ truthySchema (resolveSchemaInfo st (getUrnForTable st t false)).1 ∧
     ¬ truthySchema (resolveSchemaInfo st (getUrnForTable st t true)).1 →
      (resolveTable st t).1 = (getUrnForTable st t true, none)) := by
  by_cases h1 : truthySchema (resolveSchemaInfo st (getUrnForTable st t false)).1
  · have hres : resolveTable st t =
        ((getUrnForTable st t false,
          (resolveSchemaInfo st (getUrnForTable st t false)).1),
         (resolveSchemaInfo st (getUrnForTable st t false)).2) := by
      simp [resolveTable, h1]
    refine ⟨?_, ?_⟩
    · rw [hres]
      exact ⟨fun _ => h1, fun _ => rfl⟩
    · intro h
      exact absurd h1 h.1
  · have hretry := resolveSchemaInfo_retry_fst st (getUrnForTable st t false)
      (getUrnForTable st t true) hne
    by_cases h2 : truthySchema
        (resolveSchemaInfo
          (resolveSchemaInfo st (getUrnForTable st t false)).2
          (getUrnForTable st t true)).1
    · have hres : resolveTable st t =
          ((getUrnForTable st t true,
            (resolveSchemaInfo
              (resolveSchemaInfo st (getUrnForTable st t false)).2
              (getUrnForTable st t true)).1),
           (resolveSchemaInfo
             (resolveSchemaInfo st (getUrnForTable st t false)).2
             (getUrnForTable st t true)).2) := by
        simp [resolveTable, if_neg h1, hne, if_pos h2]
      refine ⟨?_, ?_⟩
      · rw [hres]
        constructor
        · intro hurn
          exact absurd hurn hne
        · intro h
          exact absurd h h1
      · intro h
        rw [← hretry] at h
        exact absurd h2 h.2
    · have hres : resolveTable st t =
          ((getUrnForTable st t true, none),
           (resolveSchemaInfo
             (resolveSchemaInfo st (getUrnForTable st t false)).2
             (getUrnForTable st t true)).2) := by
        simp [resolveTable, if_neg h1, hne, if_neg h2]
      refine ⟨?_, ?_⟩
      · rw [hres]
        constructor
        · intro hurn
          exact absurd hurn hne
        · intro h
          exact absurd h h1
      · intro _
        rw [hres]

/-- C10 witness: the amended statement on an empty resolver — a full miss
returns the lowercase urn paired with `None`. -/
theorem C10_urn_case_witness :
    (resolveTable emptyResolver exUpperTable).1 =
      (getUrnForTable emptyResolver exUpperTable true, none) :=
  (C10_urn_case emptyResolver exUpperTable (by decide)).2 ⟨by decide, by decide⟩

/-- C5 counterexample: for `INSERT INTO d.s.t SELECT x FROM a, d.s.b`
with no schemas known, the column stage does fail with `SqlOptimizerError`
— but the entry point does not return the table-level result: sorting the
mixed-qualification read tables raises `TypeError` (see C8), which no
`except` clause catches, so nothing is returned at all. -/
theorem C5_counterexample :
    columnLevelLineage (simplifyStatement exMixedStmt) "postgres"
      (resolveReadTables emptyResolver (tableLevelLineage exMixedStmt).1)
      (some ⟨some "d", some "s", "t"⟩) = .error .optimizer ∧
    sqlglotTester ⟨exMixedStmt, trivialScope⟩ emptyResolver none none =
      .error .typeError := by
  exact ⟨rfl, rfl⟩

/-- C5 (amended): `UnsupportedStatementTypeError` and `SqlOptimizerError`
never escape `sqlglot_tester`: whenever the column stage fails with one of
them and the read and write table lists are sortable under the field-wise
comparison (which mixed-qualification names can violate, see C8), the
entry point returns the table-level result with `column_lineage` absent. -/
theorem C5_degraded (ps : ParsedStatement) (resolver : SchemaResolverState)
    (ddb dsch : Option String) (tr : List Nat) (e : ColErr)
    (ts ms : List TableName)
    (hscope : scopeTraverse ps.scope = .ok tr)
    (hcol : columnLevelLineage
        (simplifyStatement (qualifyStmtTables ddb dsch ps.stmt))
        resolver.platform
        (resolveReadTables resolver
          (tableLevelLineage (qualifyStmtTables ddb dsch ps.stmt)).1)
        (match (tableLevelLineage (qualifyStmtTables ddb dsch ps.stmt)).2 with
         | [t] => some t
         | _ => none) = .error e)
    (he : e ≠ .typeError)
    (hts : sortFallible tableNameLt
        (tableLevelLineage (qualifyStmtTables ddb dsch ps.stmt)).1 = some ts)
    (hms : sortFallible tableNameLt
        (tableLevelLineage (qualifyStmtTables ddb dsch ps.stmt)).2 = some ms) :
    sqlglotTester ps resolver ddb dsch = .ok ⟨ts, ms, none⟩ := by
  unfold sqlglotTester
  rw [hscope]
  simp only [hcol, hts, hms]
  cases e with
  | typeError => exact absurd rfl he
  | unsupported => rfl
  | optimizer => rfl

/-- C5 witness: `DELETE FROM d.s.t` cannot be reduced to a SELECT shape;
the entry point still returns `in_tables = []`, `out_tables = [d.s.t]`
with `column_lineage = None`. -/
theorem C5_degraded_witness :
    sqlglotTester ⟨exDeleteStmt, trivialScope⟩ emptyResolver none none =
      .ok ⟨[], [⟨some "d", some "s", "t"⟩], none⟩ := by
  exact C5_degraded ⟨exDeleteStmt, trivialScope⟩ emptyResolver none none [0]
    .unsupported [] [⟨some "d", some "s", "t"⟩] rfl rfl (by decide) rfl rfl

/-- C1: the end-to-end scenario.  `INSERT INTO sales.totals SELECT
customer_id, SUM(amount) AS total FROM sales.orders GROUP BY customer_id`,
with `sales.orders` known to have columns `{customer_id, amount}`,
produces `out_tables = {sales.totals}`, `in_tables = {sales.orders}`, and
exactly the column lineage `totals.customer_id <- orders.customer_id` and
`totals.total <- orders.amount`. -/
theorem C1_end_to_end :
    sqlglotTester ⟨exInsertStmt, trivialScope⟩ exInsertResolver none none =
      .ok { in_tables := [⟨none, some "sales", "orders"⟩]
            out_tables := [⟨none, some "sales", "totals"⟩]
            column_lineage := some
              [⟨⟨some ⟨none, some "sales", "totals"⟩, "customer_id"⟩,
                 [⟨⟨none, some "sales", "orders"⟩, "customer_id"⟩]⟩,
               ⟨⟨some ⟨none, some "sales", "totals"⟩, "total"⟩,
                 [⟨⟨none, some "sales", "orders"⟩, "amount"⟩]⟩] } := by
  rfl

end DatahubLineage
